import Mathlib

/-!
Verification of the interactive EQ gesture-to-parameter engine
(`src/unnamed/part_000`, the `InteractiveEQ` module).

The JavaScript source is shallowly embedded below.  Decimal pointer/domain
quantities are modelled as rationals (`ℚ`); the transcendental bandwidth
math (`Math.sinh`, `Math.asinh`, `Math.log2`, `Math.pow`) is modelled over
the reals (`ℝ`).  JavaScript `Math.round` is `fun x => ⌊x + 1/2⌋` (halves
round toward positive infinity).  A JavaScript `TypeError` (an uncaught
throw) is modelled as `Except.error ()`.
-/

namespace InteractiveEQ

/-- JavaScript `Math.round`: rounds to the nearest integer, halves toward
positive infinity. -/
def jsRound {α : Type} [LinearOrderedField α] [FloorRing α] (x : α) : ℤ :=
  ⌊x + 1 / 2⌋

/-- Shared rounding pattern `Math.round(x * precision) / precision` from the
source (gain uses precision 10, Q uses 10 or 100). -/
def roundTo {α : Type} [LinearOrderedField α] [FloorRing α]
    (precision : α) (x : α) : α :=
  (jsRound (x * precision) : α) / precision

/-- Gain clamp `Math.max(-40, Math.min(40, g))` (source lines 238 and 730). -/
def clampGain {α : Type} [LinearOrder α] [Neg α] [OfNat α 40] (x : α) : α :=
  max (-40) (min 40 x)

/-- Frequency clamp `Math.max(20, Math.min(20000, f))` (source lines 223, 587, 708). -/
def clampFreq {α : Type} [LinearOrder α] [OfNat α 20] [OfNat α 20000] (x : α) : α :=
  max 20 (min 20000 x)

/-- Q storage `Math.max(0.1, Math.min(10, Math.round(q * 100) / 100))` used by
the whisker drag (source line 604). -/
def qStore {α : Type} [LinearOrderedField α] [FloorRing α] (x : α) : α :=
  max (1 / 10) (min 10 ((jsRound (x * 100) : α) / 100))

/-- JavaScript `Array.prototype.findIndex`, as an `Option ℕ` (the source
compares the `-1` result against `0`/`-1` explicitly at each use site). -/
def jsFindIndex {α : Type} (p : α → Bool) : List α → Option ℕ
  | [] => none
  | a :: l => if p a then some 0 else (jsFindIndex p l).map (· + 1)

-- ===========================================
-- Curve sampling (`samplePhoneCurveAt`, source lines 109-133)
-- ===========================================

/-- Reference-curve samples are `[freq, level]` pairs. -/
abbrev Point := ℚ × ℚ

/-- The slice of a phone object read by `samplePhoneCurveAt`: `activeCurves`
and `rawChannels` are arrays whose entries may be `null` (`none`); a present
entry is the sample array itself (the `curve.l || curve` unwrap of the source
resolves to the sample array either way). -/
structure Phone where
  activeCurves : List (Option (List Point))
  rawChannels : List (Option (List Point))

/-- Curve-data resolution of `samplePhoneCurveAt` (source lines 112-123):
`activeCurves[0]` if truthy, else `rawChannels[0]` if truthy, else `null`. -/
def resolveCurveData (p : Phone) : Option (List Point) :=
  match p.activeCurves.head? with
  | some (some c) => some c
  | _ =>
    match p.rawChannels.head? with
    | some (some c) => some c
    | _ => none

/-- Interpolation core of `samplePhoneCurveAt` (source lines 125-132):
`idx = data.findIndex(d => d[0] >= freq); if (idx < 0) idx = data.length - 1;
if (idx === 0) return data[0][1] + offset;` then linear interpolation between
`data[idx-1]` and `data[idx]`.  On empty `data`, `idx` is `-1` and the access
`data[idx - 1][0]` is a `TypeError`, modelled as `Except.error ()`. -/
def sampleData (data : List Point) (offset freq : ℚ) : Except Unit ℚ :=
  match jsFindIndex (fun d => decide (freq ≤ d.1)) data with
  | some 0 =>
    match data.head? with
    | some p => .ok (p.2 + offset)
    | none => .error ()
  | some (j + 1) =>
    match data.get? j, data.get? (j + 1) with
    | some p1, some p2 =>
      .ok (p1.2 + (freq - p1.1) / (p2.1 - p1.1) * (p2.2 - p1.2) + offset)
    | _, _ => .error ()
  | none =>
    match data with
    | [] => .error ()
    | [p] => .ok (p.2 + offset)
    | _ :: _ :: _ =>
      match data.get? (data.length - 2), data.get? (data.length - 1) with
      | some p1, some p2 =>
        .ok (p1.2 + (freq - p1.1) / (p2.1 - p1.1) * (p2.2 - p1.2) + offset)
      | _, _ => .error ()

/-- The curve sampler `samplePhoneCurveAt(phoneObj, freq)` (source lines
109-133).  `baseline` is the externally supplied `callbacks.getBaseline().fn`
transform and `offset` is `callbacks.getOffset(phoneObj)`.  `Except.ok none`
is the `NoCurve` result (`null` in the source); `Except.error ()` is an
uncaught `TypeError`. -/
def samplePhoneCurveAt (baseline : List Point → List Point) (offset : ℚ)
    (phoneObj : Option Phone) (freq : ℚ) : Except Unit (Option ℚ) :=
  match phoneObj with
  | none => .ok none
  | some p =>
    match resolveCurveData p with
    | none => .ok none
    | some cd =>
      match sampleData (baseline cd) offset freq with
      | .ok v => .ok (some v)
      | .error e => .error e

/-- Gain computation shared verbatim by the drag frame update (source lines
229-238) and graph-click creation (source lines 721-730): curve-relative when
a curve level is available, otherwise relative to the midpoint of the visible
gain-axis domain `scales.y.domain()`; rounded to one decimal and clamped to
`[-40, 40]` before the write. -/
def computeGain (curveY : Option ℚ) (targetY ydLo ydHi : ℚ) : ℚ :=
  let raw :=
    match curveY with
    | some c => targetY - c
    | none => targetY - (ydLo + ydHi) / 2
  clampGain (roundTo 10 raw)

-- ===========================================
-- Filter model and handle reconciliation (`updateEQHandles`, source lines 361-373, 653-659)
-- ===========================================

/-- One parametric band as stored in the host's filter list / filter inputs.
`type` is the raw stored string (`"PK"`, `"LSQ"`, `"HSQ"`, or anything else
when the input holds an unexpected value). -/
structure Filter where
  enabled : Bool
  type : String
  freq : ℚ
  gain : ℚ
  q : ℚ
deriving DecidableEq

/-- Map-with-index, the `filters.map((f, i) => ({ ...f, filterIndex: i }))`
step of `updateEQHandles` (source line 369). -/
def withIndexFrom : ℕ → List Filter → List (ℕ × Filter)
  | _, [] => []
  | i, f :: fs => (i, f) :: withIndexFrom (i + 1) fs

/-- Truthiness test of the handle filter `f.freq && f.freq > 0`
(source line 370): `freq` truthy (nonzero) and positive. -/
def handleVisible (f : Filter) : Bool :=
  decide (f.freq ≠ 0 ∧ 0 < f.freq)

/-- Keys (filter indices) of the handles demanded by the current filter list
(source lines 368-370). -/
def handleKeys (fs : List Filter) : List ℕ :=
  ((withIndexFrom 0 fs).filter (fun p => handleVisible p.2)).map Prod.fst

/-- The d3 data join keyed by `filterIndex` (source lines 372-375): exiting
keys are removed, surviving keys keep their DOM order, entering keys are
appended. -/
def dataJoin (old newKeys : List ℕ) : List ℕ :=
  old.filter (· ∈ newKeys) ++ newKeys.filter (· ∉ old)

/-- Handle reconciliation `updateEQHandles` (source lines 361-376), projected
onto the set of rendered handle keys: when disabled all handles are removed;
when enabled the handle set is joined against the visible filters. -/
def updateEQHandles (isEnabled : Bool) (old : List ℕ) (fs : List Filter) : List ℕ :=
  if isEnabled then dataJoin old (handleKeys fs) else []

-- ===========================================
-- Filter type cycling (`cycleFilterType`, source lines 288-296)
-- ===========================================

/-- Type cycling on double-click/double-tap (source lines 288-296):
`cur = ["PK","LSQ","HSQ"].indexOf(value)` (`-1` when absent), then the stored
type becomes `types[(cur + 1) % 3]`. -/
def cycleFilterType (t : String) : String :=
  let types : List String := ["PK", "LSQ", "HSQ"]
  let cur : ℤ :=
    match jsFindIndex (fun s => s == t) types with
    | some i => (i : ℤ)
    | none => -1
  types.getD ((cur + 1) % 3).toNat "PK"

-- ===========================================
-- Wheel Q stepping (source lines 325-338)
-- ===========================================

/-- Wheel handler Q update (source lines 329-336): step `0.1` (coarse) or
`0.01` (fine, shift held), then `Math.max(0.1, Math.min(10,
Math.round(q * precision) / precision))` with `precision` 10 or 100. -/
def wheelStepQ (fine : Bool) (q : ℚ) (up : Bool) : ℚ :=
  let step : ℚ := if fine then 1 / 100 else 1 / 10
  let precision : ℚ := if fine then 100 else 10
  let q2 := q + (if up then step else -step)
  max (1 / 10) (min 10 (roundTo precision q2))

/-- Modelled from the spec: the rounding policy asserted by the claim, `Q
rounds to 2 decimals in coarse mode, 3 decimals in fine mode`, with the same
step and clamp as the source.  Used only to compare the claimed precision to
the implemented one. -/
def wheelStepQClaimed (fine : Bool) (q : ℚ) (up : Bool) : ℚ :=
  let step : ℚ := if fine then 1 / 100 else 1 / 10
  let precision : ℚ := if fine then 1000 else 100
  let q2 := q + (if up then step else -step)
  max (1 / 10) (min 10 (roundTo precision q2))

-- ===========================================
-- Graph-click filter creation (`handleGraphClick`, source lines 732-754)
-- ===========================================

/-- Parameters written into the chosen slot on graph-click creation (source
lines 746-751): enabled, type `"PK"`, the computed frequency and gain, `q = 1`. -/
def newClickFilter (freq gain : ℚ) : Filter :=
  { enabled := true, type := "PK", freq := freq, gain := gain, q := 1 }

/-- Unassigned-slot test `f => !f.freq || f.freq === 0` (source line 733):
over numeric `freq` this is `freq = 0`. -/
def slotFree (f : Filter) : Bool :=
  decide (f.freq = 0)

/-- Slot selection and write of `handleGraphClick` (source lines 732-751),
returning the updated filter list and band count.  The external
`updateFilterElements()` callback, which materialises the input elements for a
freshly incremented band count, is modelled as extending the list by the one
new slot that is then written (the write targets index `bands`, the first new
index when `bands = fs.length`). -/
def handleGraphClickCore (fs : List Filter) (bands bandsMax : ℕ)
    (freq gain : ℚ) : List Filter × ℕ :=
  match jsFindIndex slotFree fs with
  | some i => (fs.set i (newClickFilter freq gain), bands)
  | none =>
    if bands < bandsMax then (fs ++ [newClickFilter freq gain], bands + 1)
    else (fs, bands)

/-- Frequency and gain written by a drag frame (source lines 222-242):
`newFreq = Math.max(20, Math.min(20000, Math.round(scales.x.invert(x))))` and
the rounded, clamped curve-relative gain.  `xInv` and `targetY` are the
domain values produced by the scale inversions. -/
def dragFrameWrite (xInv targetY : ℚ) (curveY : Option ℚ) (ydLo ydHi : ℚ) : ℚ × ℚ :=
  (clampFreq ((jsRound xInv : ℤ) : ℚ), computeGain curveY targetY ydLo ydHi)

/-- Full graph-click creation (source lines 697-754) after coordinate
inversion: frequency and gain are computed by exactly the same rounding and
clamping as the drag frame, then dispatched to the slot logic. -/
def handleGraphClick (fs : List Filter) (bands bandsMax : ℕ)
    (xInv targetY : ℚ) (curveY : Option ℚ) (ydLo ydHi : ℚ) : List Filter × ℕ :=
  handleGraphClickCore fs bands bandsMax (clampFreq ((jsRound xInv : ℤ) : ℚ))
    (computeGain curveY targetY ydLo ydHi)

-- ===========================================
-- Drag session (`startDrag`/`onMove`/`onUp`, source lines 185-282)
-- ===========================================

/-- Events seen by an active drag gesture: pointer moves (client coordinates)
and animation-frame callbacks firing. -/
inductive DragEv where
  | move (p : ℚ × ℚ)
  | frame
deriving DecidableEq

/-- Per-gesture drag state: the `moved` flag (source line 192), the pending
animation frame with its captured pointer position (source lines 214-215),
and the parameter writes performed so far (each executed frame writes `freq`
and `gain` once, source lines 241-242). -/
structure DragState where
  moved : Bool
  pending : Option (ℚ × ℚ)
  writes : List (ℚ × ℚ)
deriving DecidableEq

/-- Initial state created by `startDrag` (source lines 185-196). -/
def dragInit : DragState :=
  { moved := false, pending := none, writes := [] }

/-- Squared Euclidean pointer distance; `Math.hypot(cx - startX, cy - startY)
< 5` is equivalent to this being `< 25`. -/
def distSq (a b : ℚ × ℚ) : ℚ :=
  (a.1 - b.1) ^ 2 + (a.2 - b.2) ^ 2

/-- One drag event step.  `onMove` (source lines 198-250): a move below the
5 px threshold before any committed movement is ignored; otherwise `moved`
latches true and, unless a frame is already pending, a recomputation is
scheduled with the captured position.  A firing frame (the
`requestAnimationFrame` callback) clears `pending` and performs the
parameter write. -/
def dragStep (start : ℚ × ℚ) (s : DragState) (e : DragEv) : DragState :=
  match e with
  | .move p =>
    if ¬s.moved ∧ distSq start p < 25 then s
    else if s.pending.isSome then { s with moved := true }
    else { s with moved := true, pending := some p }
  | .frame =>
    match s.pending with
    | none => s
    | some p => { s with pending := none, writes := s.writes ++ [p] }

/-- Folds a whole event sequence through `dragStep`. -/
def runDrag (start : ℚ × ℚ) (s : DragState) (evs : List DragEv) : DragState :=
  evs.foldl (dragStep start) s

/-- Whether `onUp` invokes the commit callback: `if (moved)
callbacks.applyEQ();` (source lines 263-265). -/
def commitOnUp (s : DragState) : Bool :=
  s.moved

-- ===========================================
-- Enable/disable lifecycle (`enable`, `disable`, source lines 849-907)
-- ===========================================

/-- The three DOM listeners registered by `enable` and removed by `disable`
(source lines 855-857 and 894-896); each is identified, as the DOM does, by
target, event type, the (module-level, hence stable) handler function, and
the capture flag. -/
inductive DomKey where
  | svgTouchstart
  | svgTouchmove
  | docTouchend
deriving DecidableEq

/-- Module state relevant to the enable/disable lifecycle: the `initialized`
and `enabled` flags, the set of registered DOM listeners (a set because
`addEventListener` discards an already-registered (type, handler, capture)
triple), the three d3 `.interactive`-namespaced handlers on the interaction
rectangle (d3 `.on` replaces the handler registered under the same name), the
rendered handle keys, and the host's filter list. -/
structure EQState where
  inited : Bool
  enabled : Bool
  dom : Finset DomKey
  clickInteractive : Bool
  touchstartInteractive : Bool
  touchendInteractive : Bool
  handles : List ℕ
  filters : List Filter
deriving DecidableEq

/-- The `enable()` entry point (source lines 849-888), projected onto
listener and handle bookkeeping: a no-op when uninitialized, otherwise it
registers the three DOM listeners, installs the three `.interactive`
handlers, and re-renders the handles. -/
def insertEnableListeners (d : Finset DomKey) : Finset DomKey :=
  insert .docTouchend (insert .svgTouchmove (insert .svgTouchstart d))

def eraseDisableListeners (d : Finset DomKey) : Finset DomKey :=
  ((d.erase .svgTouchstart).erase .svgTouchmove).erase .docTouchend

def enableState (s : EQState) : EQState :=
  if s.inited then
    { s with
      enabled := true
      dom := insertEnableListeners s.dom
      clickInteractive := true
      touchstartInteractive := true
      touchendInteractive := true
      handles := handleKeys s.filters }
  else s

/-- The `disable()` entry point (source lines 890-907): a no-op when
uninitialized, otherwise it removes the three DOM listeners, clears the three
`.interactive` handlers, and removes every rendered handle. -/
def disableState (s : EQState) : EQState :=
  if s.inited then
    { s with
      enabled := false
      dom := eraseDisableListeners s.dom
      clickInteractive := false
      touchstartInteractive := false
      touchendInteractive := false
      handles := [] }
  else s

/-- One `enable()`/`disable()` cycle. -/
def cycleState (s : EQState) : EQState :=
  disableState (enableState s)

-- ===========================================
-- Bandwidth math (`whiskerDrag`, source lines 572-648), over ℝ
-- ===========================================

/-- Which whisker endpoint is being dragged. -/
inductive Side where
  | left
  | right
deriving DecidableEq

noncomputable section

open Real

/-- Bandwidth in octaves from Q: `2 * Math.asinh(1 / (2 * q)) / Math.LN2`
(source line 611). -/
def bwFromQ (q : ℝ) : ℝ :=
  2 * Real.arsinh (1 / (2 * q)) / Real.log 2

/-- High band edge from Q: `freq * Math.pow(2, bwOctaves / 2)` (source
line 613). -/
def edgeHighFromQ (f0 q : ℝ) : ℝ :=
  f0 * (2 : ℝ) ^ (bwFromQ q / 2)

/-- Low band edge from Q: `freq / Math.pow(2, bwOctaves / 2)` (source
line 612). -/
def edgeLowFromQ (f0 q : ℝ) : ℝ :=
  f0 / (2 : ℝ) ^ (bwFromQ q / 2)

/-- The pair `(fLow, fHigh)` reconstructed by a whisker-drag frame (source
lines 589-596): the dragged edge is `fEdge`, the opposite edge is
`freq * freq / fEdge`. -/
def whiskerEdges (side : Side) (freq fEdge : ℝ) : ℝ × ℝ :=
  match side with
  | .left => (fEdge, freq * freq / fEdge)
  | .right => (freq * freq / fEdge, fEdge)

open Classical in
/-- The Q recomputation of a whisker-drag frame (source lines 589-604):
degenerate geometry (`fHigh <= fLow || fLow <= 0`, or `bwOctaves <= 0`)
yields no value (the frame is dropped); otherwise the new Q is
`1 / (2 * Math.sinh(bwOctaves * Math.LN2 / 2))` rounded to two decimals and
clamped to `[0.1, 10]`. -/
def whiskerDragQ (side : Side) (freq fEdge : ℝ) : Option ℝ :=
  if (whiskerEdges side freq fEdge).2 ≤ (whiskerEdges side freq fEdge).1
      ∨ (whiskerEdges side freq fEdge).1 ≤ 0 then none
  else if Real.logb 2 ((whiskerEdges side freq fEdge).2 / (whiskerEdges side freq fEdge).1) ≤ 0
    then none
  else some (qStore (1 / (2 * Real.sinh
    (Real.logb 2 ((whiskerEdges side freq fEdge).2 / (whiskerEdges side freq fEdge).1)
      * Real.log 2 / 2))))

/-- The filter state a whisker-drag frame can write: the stored Q
(`filterInputs.q[idx].value` and `d.q`, source lines 608-610) together with
the untouched `freq` and `gain` fields. -/
structure WhiskerState where
  q : ℝ
  freq : ℝ
  gain : ℝ
deriving Inhabited

/-- One whisker-drag frame (source lines 580-630): the center frequency is
`d.freq || 1000` (source line 582), the dragged pointer position is inverted
and clamped to `[20, 20000]` (source lines 586-587); if the recomputation is
dropped, the state is unchanged; otherwise only the Q field is written
(`freq` and `gain` are never touched by a whisker drag). -/
def whiskerDragFrame (side : Side) (rawEdge : ℝ) (s : WhiskerState) : WhiskerState :=
  let freq : ℝ := if s.freq = 0 then 1000 else s.freq
  match whiskerDragQ side freq (clampFreq rawEdge) with
  | none => s
  | some newQ => { s with q := newQ }

end

-- ===========================================
-- Helper lemmas
-- ===========================================

theorem jsFindIndex_eq_none_iff {α : Type} (p : α → Bool) (l : List α) :
    jsFindIndex p l = none ↔ ∀ a ∈ l, p a = false := by
  induction l with
  | nil => simp [jsFindIndex]
  | cons a l ih =>
    by_cases hpa : p a
    · simp [jsFindIndex, hpa]
    · simp only [jsFindIndex, hpa, if_neg, Bool.false_eq_true, ite_false, Option.map_eq_none',
        List.mem_cons]
      rw [ih]
      constructor
      · rintro hall b (rfl | hb)
        · simpa using hpa
        · exact hall b hb
      · intro hall b hb
        exact hall b (Or.inr hb)

theorem jsFindIndex_lt_length {α : Type} (p : α → Bool) (l : List α) (i : ℕ)
    (h : jsFindIndex p l = some i) : i < l.length := by
  induction l generalizing i with
  | nil => simp [jsFindIndex] at h
  | cons a l ih =>
    by_cases hpa : p a
    · simp [jsFindIndex, hpa] at h
      subst h
      simp
    · simp only [jsFindIndex, hpa, Bool.false_eq_true, ite_false, Option.map_eq_some'] at h
      obtain ⟨j, hj, rfl⟩ := h
      have := ih j hj
      simp
      omega

theorem jsFindIndex_spec {α : Type} (p : α → Bool) (l : List α) (i : ℕ)
    (h : jsFindIndex p l = some i) :
    ∃ a, l.get? i = some a ∧ p a = true
      ∧ ∀ j < i, ∀ b, l.get? j = some b → p b = false := by
  induction l generalizing i with
  | nil => simp [jsFindIndex] at h
  | cons a l ih =>
    by_cases hpa : p a
    · simp [jsFindIndex, hpa] at h
      subst h
      refine ⟨a, rfl, hpa, ?_⟩
      intro j hj b hb
      omega
    · simp only [jsFindIndex, hpa, Bool.false_eq_true, ite_false, Option.map_eq_some'] at h
      obtain ⟨j, hj, rfl⟩ := h
      obtain ⟨b, hb, hpb, hmin⟩ := ih j hj
      refine ⟨b, hb, hpb, ?_⟩
      intro k hk c hc
      cases k with
      | zero =>
        simp at hc
        subst hc
        simpa using hpa
      | succ k =>
        exact hmin k (by omega) c hc

theorem jsFindIndex_ne_none_of_mem {α : Type} (p : α → Bool) (l : List α) (a : α)
    (ha : a ∈ l) (hpa : p a = true) : jsFindIndex p l ≠ none := by
  intro hnone
  rw [jsFindIndex_eq_none_iff] at hnone
  simp [hnone a ha] at hpa

theorem mem_withIndexFrom (fs : List Filter) (n k : ℕ) (f : Filter) :
    (k, f) ∈ withIndexFrom n fs ↔ ∃ j, fs.get? j = some f ∧ k = n + j := by
  induction fs generalizing n with
  | nil => simp [withIndexFrom]
  | cons g fs ih =>
    simp only [withIndexFrom, List.mem_cons, Prod.mk.injEq, ih]
    constructor
    · rintro (⟨rfl, rfl⟩ | ⟨j, hj, rfl⟩)
      · exact ⟨0, rfl, by omega⟩
      · exact ⟨j + 1, hj, by omega⟩
    · rintro ⟨j, hj, rfl⟩
      cases j with
      | zero =>
        simp at hj
        exact Or.inl ⟨rfl, hj.symm⟩
      | succ j =>
        exact Or.inr ⟨j, hj, by omega⟩

theorem withIndexFrom_fst_ge (fs : List Filter) (n : ℕ) (pr : ℕ × Filter)
    (h : pr ∈ withIndexFrom n fs) : n ≤ pr.1 := by
  obtain ⟨k, f⟩ := pr
  rw [mem_withIndexFrom] at h
  obtain ⟨j, _, rfl⟩ := h
  omega

theorem nodup_withIndexFrom_fst (fs : List Filter) (n : ℕ) :
    ((withIndexFrom n fs).map Prod.fst).Nodup := by
  induction fs generalizing n with
  | nil => simp [withIndexFrom]
  | cons g fs ih =>
    simp only [withIndexFrom, List.map_cons, List.nodup_cons]
    refine ⟨?_, ih (n + 1)⟩
    intro hmem
    simp only [List.mem_map] at hmem
    obtain ⟨pr, hpr, hfst⟩ := hmem
    have := withIndexFrom_fst_ge fs (n + 1) pr hpr
    omega

theorem mem_handleKeys (fs : List Filter) (k : ℕ) :
    k ∈ handleKeys fs ↔ ∃ f, fs.get? k = some f ∧ f.freq ≠ 0 ∧ 0 < f.freq := by
  simp only [handleKeys, List.mem_map, List.mem_filter]
  constructor
  · rintro ⟨⟨k', f⟩, ⟨hmem, hvis⟩, rfl⟩
    rw [mem_withIndexFrom] at hmem
    obtain ⟨j, hj, rfl⟩ := hmem
    simp only [handleVisible, decide_eq_true_eq] at hvis
    exact ⟨f, by simpa using hj, hvis⟩
  · rintro ⟨f, hf, hvis⟩
    refine ⟨(k, f), ⟨?_, ?_⟩, rfl⟩
    · rw [mem_withIndexFrom]
      exact ⟨k, hf, by omega⟩
    · simp only [handleVisible, decide_eq_true_eq]
      exact hvis

theorem nodup_handleKeys (fs : List Filter) : (handleKeys fs).Nodup := by
  have hsub : List.Sublist (handleKeys fs) ((withIndexFrom 0 fs).map Prod.fst) :=
    List.Sublist.map Prod.fst (List.filter_sublist (withIndexFrom 0 fs))
  exact hsub.nodup (nodup_withIndexFrom_fst fs 0)

theorem mem_dataJoin (old newKeys : List ℕ) (k : ℕ) :
    k ∈ dataJoin old newKeys ↔ k ∈ newKeys := by
  simp only [dataJoin, List.mem_append, List.mem_filter, decide_eq_true_eq]
  by_cases hk : k ∈ old <;> simp [hk]

theorem nodup_dataJoin (old newKeys : List ℕ) (h1 : old.Nodup) (h2 : newKeys.Nodup) :
    (dataJoin old newKeys).Nodup := by
  refine List.Nodup.append (h1.filter _) (h2.filter _) ?_
  intro k hk1 hk2
  rw [List.mem_filter] at hk1 hk2
  simp only [decide_eq_true_eq] at hk2
  exact hk2.2 hk1.1

theorem dragStep_moved (start : ℚ × ℚ) (s : DragState) (e : DragEv)
    (h : s.moved = true) : (dragStep start s e).moved = true := by
  cases e with
  | move p =>
    simp only [dragStep, h]
    by_cases hp : s.pending.isSome <;> simp [hp]
  | frame =>
    simp only [dragStep]
    cases s.pending <;> simp [h]

theorem runDrag_moved (start : ℚ × ℚ) (s : DragState) (evs : List DragEv)
    (h : s.moved = true) : (runDrag start s evs).moved = true := by
  induction evs generalizing s with
  | nil => exact h
  | cons e evs ih => exact ih (dragStep start s e) (dragStep_moved start s e h)

theorem runDrag_below_threshold (start : ℚ × ℚ) (evs : List DragEv)
    (h : ∀ p : ℚ × ℚ, DragEv.move p ∈ evs → distSq start p < 25) :
    runDrag start dragInit evs = dragInit := by
  induction evs with
  | nil => rfl
  | cons e evs ih =>
    have hstep : dragStep start dragInit e = dragInit := by
      cases e with
      | move p =>
        have := h p (by simp)
        simp [dragStep, dragInit, this]
      | frame => simp [dragStep, dragInit]
    show runDrag start (dragStep start dragInit e) evs = dragInit
    rw [hstep]
    exact ih fun p hp => h p (by simp [hp])

theorem qStore_near (q : ℝ) (h1 : 1 / 10 ≤ q) (h2 : q ≤ 10) :
    |qStore q - q| ≤ 1 / 200 := by
  have hle : (⌊q * 100 + 1 / 2⌋ : ℝ) ≤ q * 100 + 1 / 2 := Int.floor_le _
  have hgt : q * 100 + 1 / 2 - 1 < (⌊q * 100 + 1 / 2⌋ : ℝ) := Int.sub_one_lt_floor _
  have hge10 : (10 : ℤ) ≤ ⌊q * 100 + 1 / 2⌋ := Int.le_floor.2 (by push_cast; linarith)
  have hle1000 : ⌊q * 100 + 1 / 2⌋ < (1001 : ℤ) := Int.floor_lt.2 (by push_cast; linarith)
  have hge10' : (10 : ℝ) ≤ (⌊q * 100 + 1 / 2⌋ : ℝ) := by exact_mod_cast hge10
  have hle1000' : (⌊q * 100 + 1 / 2⌋ : ℝ) ≤ 1000 := by
    have : ⌊q * 100 + 1 / 2⌋ ≤ (1000 : ℤ) := by omega
    exact_mod_cast this
  have hcollapse : qStore q = (⌊q * 100 + 1 / 2⌋ : ℝ) / 100 := by
    unfold qStore jsRound
    rw [min_eq_right (by linarith), max_eq_right (by linarith)]
  rw [hcollapse, abs_le]
  constructor <;> [linarith; linarith]

theorem sampleData_ok_of_ne_nil (data : List Point) (offset freq : ℚ)
    (h : data ≠ []) : ∃ v, sampleData data offset freq = Except.ok v := by
  match hfind : jsFindIndex (fun d => decide (freq ≤ d.1)) data with
  | some 0 =>
    match data, h with
    | a :: l, _ => exact ⟨a.2 + offset, by simp [sampleData, hfind]⟩
  | some (j + 1) =>
    have hlt := jsFindIndex_lt_length _ _ _ hfind
    have hj : data.get? j = some (data.get ⟨j, by omega⟩) := List.get?_eq_get (by omega)
    have hj1 : data.get? (j + 1) = some (data.get ⟨j + 1, by omega⟩) :=
      List.get?_eq_get (by omega)
    exact ⟨_, by simp only [sampleData, hfind, hj, hj1]; rfl⟩
  | none =>
    match data, h with
    | [a], _ => exact ⟨a.2 + offset, by simp [sampleData, hfind]⟩
    | a :: b :: l, _ =>
      have hlen : (a :: b :: l).length - 2 < (a :: b :: l).length := by simp; omega
      have hlen1 : (a :: b :: l).length - 1 < (a :: b :: l).length := by simp
      have hg1 : (a :: b :: l).get? ((a :: b :: l).length - 2)
          = some ((a :: b :: l).get ⟨(a :: b :: l).length - 2, hlen⟩) :=
        List.get?_eq_get hlen
      have hg2 : (a :: b :: l).get? ((a :: b :: l).length - 1)
          = some ((a :: b :: l).get ⟨(a :: b :: l).length - 1, hlen1⟩) :=
        List.get?_eq_get hlen1
      exact ⟨_, by simp only [sampleData, hfind, hg1, hg2]; rfl⟩

-- ===========================================
-- Claim theorems
-- ===========================================

/-- C3: on both gain write paths (the drag frame update and graph-click
creation, which share the `computeGain` computation), the stored gain value is
clamped to `[-40, 40]` dB at the point of computation, before the write, for
every pointer input and every gain-axis domain. -/
theorem C3_gain_clamped_at_write (xInv targetY : ℚ) (curveY : Option ℚ) (ydLo ydHi : ℚ) :
    (-40 ≤ (dragFrameWrite xInv targetY curveY ydLo ydHi).2
      ∧ (dragFrameWrite xInv targetY curveY ydLo ydHi).2 ≤ 40)
    ∧ (-40 ≤ computeGain curveY targetY ydLo ydHi
      ∧ computeGain curveY targetY ydLo ydHi ≤ 40) := by
  have h : -40 ≤ computeGain curveY targetY ydLo ydHi
      ∧ computeGain curveY targetY ydLo ydHi ≤ 40 := by
    unfold computeGain clampGain
    exact ⟨le_max_left _ _, max_le (by norm_num) (min_le_left _ _)⟩
  exact ⟨h, h⟩

/-- C10: `cycleFilterType` is total over arbitrary stored type strings: it
advances `PK → LSQ → HSQ → PK`, writes `PK` for any other stored value, and
its result is always a member of the three valid types. -/
theorem C10_cycle_type_total (t : String) :
    cycleFilterType t ∈ (["PK", "LSQ", "HSQ"] : List String)
    ∧ cycleFilterType "PK" = "LSQ"
    ∧ cycleFilterType "LSQ" = "HSQ"
    ∧ cycleFilterType "HSQ" = "PK"
    ∧ (t ∉ (["PK", "LSQ", "HSQ"] : List String) → cycleFilterType t = "PK") := by
  have hout : t ∉ (["PK", "LSQ", "HSQ"] : List String) → cycleFilterType t = "PK" := by
    intro hmem
    simp only [List.mem_cons, List.not_mem_nil, or_false, not_or] at hmem
    obtain ⟨h1, h2, h3⟩ := hmem
    have e1 : (("PK" : String) == t) = false := by
      simp [beq_eq_false_iff_ne]
      exact fun h => h1 h.symm
    have e2 : (("LSQ" : String) == t) = false := by
      simp [beq_eq_false_iff_ne]
      exact fun h => h2 h.symm
    have e3 : (("HSQ" : String) == t) = false := by
      simp [beq_eq_false_iff_ne]
      exact fun h => h3 h.symm
    simp [cycleFilterType, jsFindIndex, e1, e2, e3]
  refine ⟨?_, by decide, by decide, by decide, hout⟩
  by_cases h1 : t = "PK"
  · subst h1; decide
  by_cases h2 : t = "LSQ"
  · subst h2; decide
  by_cases h3 : t = "HSQ"
  · subst h3; decide
  rw [hout (by simp [h1, h2, h3])]
  decide

/-- C10 witness: an unexpected stored type value is rewritten to `PK`. -/
theorem C10_witness :
    ("BQ" : String) ∉ (["PK", "LSQ", "HSQ"] : List String)
      ∧ cycleFilterType "BQ" = "PK" :=
  ⟨by decide, (C10_cycle_type_total "BQ").2.2.2.2 (by decide)⟩

/-- C6: a handle-drag gesture in which every pointer move stays strictly
within 5 px (Euclidean) of the pointer-down position performs no parameter
write and does not invoke the commit callback on pointer-up; and once the
threshold is reached the `moved` classification never reverts within the
gesture. -/
theorem C6_drag_threshold (start : ℚ × ℚ) (evs : List DragEv)
    (h : ∀ p : ℚ × ℚ, DragEv.move p ∈ evs → distSq start p < 25) :
    ((runDrag start dragInit evs).writes = []
      ∧ commitOnUp (runDrag start dragInit evs) = false)
    ∧ (∀ (s : DragState) (p : ℚ × ℚ), 25 ≤ distSq start p →
        (dragStep start s (DragEv.move p)).moved = true)
    ∧ (∀ (s : DragState) (evs2 : List DragEv), s.moved = true →
        (runDrag start s evs2).moved = true) := by
  refine ⟨?_, ?_, fun s evs2 hm => runDrag_moved start s evs2 hm⟩
  · rw [runDrag_below_threshold start evs h]
    exact ⟨rfl, rfl⟩
  · intro s p hp
    have hnot : ¬distSq start p < 25 := not_lt.2 hp
    simp only [dragStep, hnot, and_false, if_false]
    by_cases hpend : s.pending.isSome <;> simp [hpend]

/-- C6 witness: a concrete three-event gesture whose moves stay within 5 px
produces no writes and no commit. -/
theorem C6_witness :
    ((runDrag (0, 0) dragInit [DragEv.move (1, 1), DragEv.frame, DragEv.move (2, 0)]).writes = []
      ∧ commitOnUp
          (runDrag (0, 0) dragInit [DragEv.move (1, 1), DragEv.frame, DragEv.move (2, 0)])
        = false)
    ∧ (∀ (s : DragState) (p : ℚ × ℚ), 25 ≤ distSq (0, 0) p →
        (dragStep (0, 0) s (DragEv.move p)).moved = true)
    ∧ (∀ (s : DragState) (evs2 : List DragEv), s.moved = true →
        (runDrag (0, 0) s evs2).moved = true) := by
  refine C6_drag_threshold (0, 0) [DragEv.move (1, 1), DragEv.frame, DragEv.move (2, 0)] ?_
  intro p hp
  simp only [List.mem_cons, List.not_mem_nil, or_false] at hp
  rcases hp with h | h | h
  · obtain rfl : p = (1, 1) := by injection h
    norm_num [distSq]
  · exact absurd h (by simp)
  · obtain rfl : p = (2, 0) := by injection h
    norm_num [distSq]

/-- C2 counterexample: the handle filter is `f.freq && f.freq > 0` only —
a disabled filter with positive frequency still receives a handle, so the
claimed `enabled && freq > 0` filtering does not hold. -/
theorem C2_counterexample :
    updateEQHandles true []
        [{ enabled := false, type := "PK", freq := 1000, gain := 0, q := 1 }] = [0]
      ∧ ({ enabled := false, type := "PK", freq := 1000, gain := 0, q := 1 } : Filter).enabled
          = false := by
  constructor
  · decide
  · rfl

/-- C2 (amended): `updateEQHandles` renders exactly one handle per filter
with truthy positive `freq` (the `enabled` flag does not affect handle
presence), keyed by `filterIndex`; filters with `freq ≤ 0` or `freq = 0` get
no handle, stale keys are removed on the next pass, and a disabled module
renders no handles. -/
theorem C2_handles_by_freq (old : List ℕ) (fs : List Filter) (hold : old.Nodup) :
    (updateEQHandles true old fs).Nodup
    ∧ (∀ k, k ∈ updateEQHandles true old fs
        ↔ ∃ f, fs.get? k = some f ∧ f.freq ≠ 0 ∧ 0 < f.freq)
    ∧ updateEQHandles false old fs = [] := by
  refine ⟨?_, ?_, rfl⟩
  · unfold updateEQHandles
    simp only [if_true]
    exact nodup_dataJoin old (handleKeys fs) hold (nodup_handleKeys fs)
  · intro k
    unfold updateEQHandles
    simp only [if_true]
    rw [mem_dataJoin, mem_handleKeys]

/-- C2 witness: a concrete reconciliation pass over one visible filter and a
stale key. -/
theorem C2_witness :
    (updateEQHandles true [5]
        [{ enabled := true, type := "PK", freq := 1000, gain := 0, q := 1 }]).Nodup
    ∧ (∀ k, k ∈ updateEQHandles true [5]
          [{ enabled := true, type := "PK", freq := 1000, gain := 0, q := 1 }]
        ↔ ∃ f, ([{ enabled := true, type := "PK", freq := 1000, gain := 0, q := 1 }]
            : List Filter).get? k = some f ∧ f.freq ≠ 0 ∧ 0 < f.freq)
    ∧ updateEQHandles false [5]
        [{ enabled := true, type := "PK", freq := 1000, gain := 0, q := 1 }] = [] :=
  C2_handles_by_freq [5]
    [{ enabled := true, type := "PK", freq := 1000, gain := 0, q := 1 }] (by decide)

/-- C9: graph-click creation reuses the first unassigned slot (`freq = 0`)
without changing the band count; only when no unassigned slot exists and the
band count is below the maximum does it grow the list by exactly one band and
write the new parameters into the new last slot; otherwise it declines. -/
theorem C9_slot_reuse (fs : List Filter) (bands bandsMax : ℕ) (freq gain : ℚ)
    (hb : bands = fs.length) :
    ((∃ f ∈ fs, f.freq = 0) →
      ∃ j, (∃ f, fs.get? j = some f ∧ f.freq = 0)
        ∧ (∀ i < j, ∀ g, fs.get? i = some g → g.freq ≠ 0)
        ∧ handleGraphClickCore fs bands bandsMax freq gain
            = (fs.set j (newClickFilter freq gain), bands)
        ∧ (fs.set j (newClickFilter freq gain)).length = fs.length)
    ∧ ((∀ f ∈ fs, f.freq ≠ 0) → bands < bandsMax →
        handleGraphClickCore fs bands bandsMax freq gain
            = (fs ++ [newClickFilter freq gain], bands + 1)
        ∧ (fs ++ [newClickFilter freq gain]).get? bands = some (newClickFilter freq gain)
        ∧ (fs ++ [newClickFilter freq gain]).length = bands + 1)
    ∧ ((∀ f ∈ fs, f.freq ≠ 0) → bandsMax ≤ bands →
        handleGraphClickCore fs bands bandsMax freq gain = (fs, bands)) := by
  refine ⟨?_, ?_, ?_⟩
  · rintro ⟨f, hf, hfz⟩
    have hne : jsFindIndex slotFree fs ≠ none :=
      jsFindIndex_ne_none_of_mem slotFree fs f hf (by simp [slotFree, hfz])
    obtain ⟨j, hj⟩ : ∃ j, jsFindIndex slotFree fs = some j := by
      cases hfind : jsFindIndex slotFree fs with
      | none => exact absurd hfind hne
      | some j => exact ⟨j, rfl⟩
    obtain ⟨a, ha, hpa, hmin⟩ := jsFindIndex_spec slotFree fs j hj
    refine ⟨j, ⟨a, ha, by simpa [slotFree] using hpa⟩, ?_, ?_, by simp⟩
    · intro i hi g hg
      have := hmin i hi g hg
      simpa [slotFree] using this
    · simp [handleGraphClickCore, hj]
  · intro hall hlt
    have hnone : jsFindIndex slotFree fs = none := by
      rw [jsFindIndex_eq_none_iff]
      intro a ha
      simp [slotFree]
      exact hall a ha
    refine ⟨by simp [handleGraphClickCore, hnone, hlt], ?_, by simp [hb]⟩
    subst hb
    exact List.get?_concat_length fs _
  · intro hall hge
    have hnone : jsFindIndex slotFree fs = none := by
      rw [jsFindIndex_eq_none_iff]
      intro a ha
      simp [slotFree]
      exact hall a ha
    simp [handleGraphClickCore, hnone, Nat.not_lt.2 hge]

/-- C9 witness: a click with one unassigned slot writes into that slot and
keeps the band count. -/
theorem C9_witness :
    ∃ j, (∃ f, ([{ enabled := true, type := "PK", freq := 0, gain := 0, q := 1 }]
          : List Filter).get? j = some f ∧ f.freq = 0)
      ∧ (∀ i < j, ∀ g, ([{ enabled := true, type := "PK", freq := 0, gain := 0, q := 1 }]
            : List Filter).get? i = some g → g.freq ≠ 0)
      ∧ handleGraphClickCore
            [{ enabled := true, type := "PK", freq := 0, gain := 0, q := 1 }] 1 10 1000 2
          = ([{ enabled := true, type := "PK", freq := 0, gain := 0, q := 1 }].set j
              (newClickFilter 1000 2), 1)
      ∧ (([{ enabled := true, type := "PK", freq := 0, gain := 0, q := 1 }]
          : List Filter).set j (newClickFilter 1000 2)).length
          = ([{ enabled := true, type := "PK", freq := 0, gain := 0, q := 1 }]
            : List Filter).length :=
  (C9_slot_reuse [{ enabled := true, type := "PK", freq := 0, gain := 0, q := 1 }]
      1 10 1000 2 rfl).1
    ⟨{ enabled := true, type := "PK", freq := 0, gain := 0, q := 1 }, by simp, rfl⟩

/-- C7 counterexample: from a stored Q of `1.234`, a coarse wheel step up
stores `1.3` (nearest 0.1), not the `1.33` that rounding to 2 decimals in
coarse mode would produce, so the claimed `2 decimals coarse / 3 decimals
fine` precision does not match the code. -/
theorem C7_counterexample :
    wheelStepQ false (1234 / 1000) true = 13 / 10
    ∧ wheelStepQClaimed false (1234 / 1000) true = 133 / 100
    ∧ (13 / 10 : ℚ) ≠ 133 / 100 := by
  refine ⟨?_, ?_, by norm_num⟩ <;>
    norm_num [wheelStepQ, wheelStepQClaimed, roundTo, jsRound, min_def, max_def]

theorem clampQ_characterization {α : Type} [LinearOrderedField α] (c m : ℤ)
    (hc : 0 < c) (hdvd : (10 : ℤ) ∣ c) :
    (∃ k : ℤ, max (1 / 10 : α) (min 10 ((m : α) / (c : α))) = (k : α) / (c : α))
    ∧ 1 / 10 ≤ max (1 / 10 : α) (min 10 ((m : α) / (c : α)))
    ∧ max (1 / 10 : α) (min 10 ((m : α) / (c : α))) ≤ 10 := by
  have hc0 : (0 : α) < (c : α) := by exact_mod_cast hc
  refine ⟨?_, le_max_left _ _, max_le (by norm_num) (min_le_left _ _)⟩
  obtain ⟨d, rfl⟩ := hdvd
  rcases le_total ((m : α) / ((10 * d : ℤ) : α)) 10 with hm | hm
  · rw [min_eq_right hm]
    rcases le_total (1 / 10 : α) ((m : α) / ((10 * d : ℤ) : α)) with h2 | h2
    · rw [max_eq_right h2]
      exact ⟨m, rfl⟩
    · rw [max_eq_left h2]
      refine ⟨d, ?_⟩
      rw [eq_div_iff (by exact_mod_cast hc.ne')]
      push_cast
      ring
  · rw [min_eq_left hm, max_eq_right (by norm_num)]
    refine ⟨10 * (10 * d), ?_⟩
    rw [eq_div_iff (by exact_mod_cast hc.ne')]
    push_cast
    ring

/-- C7 (amended): the stored precision matches the active step granularity —
a coarse wheel step stores a multiple of 0.1, a fine wheel step stores a
multiple of 0.01, a whisker drag always stores a multiple of 0.01 (in either
mode), and every stored Q lies in `[0.1, 10]` after the rounding step. -/
theorem C7_step_granularity (q : ℚ) (up : Bool) (x : ℝ) :
    (∃ k : ℤ, wheelStepQ false q up = (k : ℚ) / 10
      ∧ 1 / 10 ≤ wheelStepQ false q up ∧ wheelStepQ false q up ≤ 10)
    ∧ (∃ k : ℤ, wheelStepQ true q up = (k : ℚ) / 100
      ∧ 1 / 10 ≤ wheelStepQ true q up ∧ wheelStepQ true q up ≤ 10)
    ∧ (∃ k : ℤ, qStore x = (k : ℝ) / 100
      ∧ 1 / 10 ≤ qStore x ∧ qStore x ≤ 10) := by
  refine ⟨?_, ?_, ?_⟩
  · have hshape : wheelStepQ false q up
        = max (1 / 10 : ℚ) (min 10 ((jsRound ((q + (if up then (1 / 10 : ℚ) else -(1 / 10)))
            * 10) : ℚ) / ((10 : ℤ) : ℚ))) := by
      simp [wheelStepQ, roundTo]
    rw [hshape]
    obtain ⟨⟨k, hk⟩, hlo, hhi⟩ :=
      clampQ_characterization (α := ℚ) 10 _ (by norm_num) (by norm_num)
    exact ⟨k, by rw [hk]; norm_num, hlo, hhi⟩
  · have hshape : wheelStepQ true q up
        = max (1 / 10 : ℚ) (min 10 ((jsRound ((q + (if up then (1 / 100 : ℚ) else -(1 / 100)))
            * 100) : ℚ) / ((100 : ℤ) : ℚ))) := by
      simp [wheelStepQ, roundTo]
    rw [hshape]
    obtain ⟨⟨k, hk⟩, hlo, hhi⟩ :=
      clampQ_characterization (α := ℚ) 100 _ (by norm_num) (by norm_num)
    exact ⟨k, by rw [hk]; norm_num, hlo, hhi⟩
  · have hshape : qStore x
        = max (1 / 10 : ℝ) (min 10 ((jsRound (x * 100) : ℝ) / ((100 : ℤ) : ℝ))) := by
      simp [qStore]
    rw [hshape]
    obtain ⟨⟨k, hk⟩, hlo, hhi⟩ :=
      clampQ_characterization (α := ℝ) 100 _ (by norm_num) (by norm_num)
    exact ⟨k, by rw [hk]; norm_num, hlo, hhi⟩

theorem dom_cycle_idem (d : Finset DomKey) :
    eraseDisableListeners (insertEnableListeners (eraseDisableListeners
        (insertEnableListeners d)))
      = eraseDisableListeners (insertEnableListeners d) := by
  ext k
  simp only [eraseDisableListeners, insertEnableListeners, Finset.mem_erase, Finset.mem_insert]
  cases k <;> simp

theorem cycleState_idem (s : EQState) (h : s.inited = true) :
    cycleState (cycleState s) = cycleState s := by
  obtain ⟨ini, en, dom, c, ts, te, hs, fl⟩ := s
  simp only at h
  subst h
  simp only [cycleState, enableState, disableState, if_true]
  rw [EQState.mk.injEq]
  refine ⟨rfl, rfl, ?_, rfl, rfl, rfl, rfl, rfl⟩
  exact dom_cycle_idem dom

/-- C8: running N enable/disable cycles (N ≥ 1) from an initialized state
leaves exactly the same registered listener set, `.interactive` handler set,
and handle set as a single cycle; and both `enable` and `disable` are no-ops
on an uninitialized module. -/
theorem C8_listener_cycles (s : EQState) :
    (s.inited = false → enableState s = s ∧ disableState s = s)
    ∧ (s.inited = true → ∀ n : ℕ, 1 ≤ n → cycleState^[n] s = cycleState s) := by
  constructor
  · intro h
    constructor
    · simp [enableState, h]
    · simp [disableState, h]
  · intro h n hn
    induction n with
    | zero => omega
    | succ m ih =>
      rcases Nat.eq_or_lt_of_le hn with he | hlt
      · rw [← he]
        simp
      · have hm : 1 ≤ m := by omega
        rw [Function.iterate_succ_apply', ih hm]
        exact cycleState_idem s h

/-- C8 witness: three cycles on a concrete initialized state equal one cycle. -/
theorem C8_witness :
    cycleState^[3]
        { inited := true, enabled := false, dom := ∅, clickInteractive := false,
          touchstartInteractive := false, touchendInteractive := false,
          handles := [], filters := [] }
      = cycleState
        { inited := true, enabled := false, dom := ∅, clickInteractive := false,
          touchstartInteractive := false, touchendInteractive := false,
          handles := [], filters := [] } :=
  (C8_listener_cycles
    { inited := true, enabled := false, dom := ∅, clickInteractive := false,
      touchstartInteractive := false, touchendInteractive := false,
      handles := [], filters := [] }).2 rfl 3 (by norm_num)

/-- C1 counterexample: the sampler is not total — a selected phone whose
first active curve is an empty sample array slips past the
`!curveData || !Array.isArray(curveData)` guard (an empty array is truthy and
is an array), `findIndex` yields `-1`, and the access `data[-2][0]` throws a
`TypeError` instead of returning `NoCurve`. -/
theorem C1_counterexample :
    samplePhoneCurveAt id 0 (some { activeCurves := [some []], rawChannels := [] }) 1000
      = Except.error () := rfl

/-- C1 (amended): `samplePhoneCurveAt` returns a number or `NoCurve` (and the
drag/click callers then use the gain-axis midpoint fallback) whenever the
resolved reference curve data is nonempty after the baseline transform, or no
curve data resolves at all; totality fails only for an empty resolved sample
array, where the source throws. -/
theorem C1_sampler_total_unless_empty (baseline : List Point → List Point)
    (offset freq : ℚ) (phoneObj : Option Phone)
    (h : ∀ p, phoneObj = some p → ∀ cd, resolveCurveData p = some cd → baseline cd ≠ []) :
    ∃ r : Option ℚ, samplePhoneCurveAt baseline offset phoneObj freq = Except.ok r := by
  cases phoneObj with
  | none => exact ⟨none, rfl⟩
  | some p =>
    cases hcd : resolveCurveData p with
    | none => exact ⟨none, by simp [samplePhoneCurveAt, hcd]⟩
    | some cd =>
      obtain ⟨v, hv⟩ := sampleData_ok_of_ne_nil (baseline cd) offset freq (h p rfl cd hcd)
      exact ⟨some v, by simp [samplePhoneCurveAt, hcd, hv]⟩

/-- C1 witness: the sampler succeeds on a concrete three-point curve. -/
theorem C1_witness :
    ∃ r : Option ℚ, samplePhoneCurveAt id 0
        (some { activeCurves := [some [(20, 0), (1000, 3), (20000, 0)]], rawChannels := [] })
        500
      = Except.ok r := by
  refine C1_sampler_total_unless_empty id 0 500
    (some { activeCurves := [some [(20, 0), (1000, 3), (20000, 0)]], rawChannels := [] }) ?_
  intro p hp cd hcd
  obtain rfl : { activeCurves := [some [(20, 0), (1000, 3), (20000, 0)]], rawChannels := [] }
      = p := by injection hp
  simp only [resolveCurveData, List.head?] at hcd
  obtain rfl : [((20 : ℚ), (0 : ℚ)), (1000, 3), (20000, 0)] = cd := by
    injection hcd
  simp

/-- C5: a whisker-drag frame with degenerate reconstructed geometry — edges
crossing (`fHigh ≤ fLow`), a non-positive low edge, or non-positive bandwidth
— performs no write at all: Q, frequency and gain keep their previous values
for that frame. -/
theorem C5_degenerate_frame_noop (side : Side) (rawEdge : ℝ) (s : WhiskerState)
    (h : (whiskerEdges side (if s.freq = 0 then 1000 else s.freq) (clampFreq rawEdge)).2
          ≤ (whiskerEdges side (if s.freq = 0 then 1000 else s.freq) (clampFreq rawEdge)).1
        ∨ (whiskerEdges side (if s.freq = 0 then 1000 else s.freq) (clampFreq rawEdge)).1 ≤ 0
        ∨ Real.logb 2
            ((whiskerEdges side (if s.freq = 0 then 1000 else s.freq) (clampFreq rawEdge)).2
              / (whiskerEdges side (if s.freq = 0 then 1000 else s.freq)
                  (clampFreq rawEdge)).1) ≤ 0) :
    whiskerDragFrame side rawEdge s = s := by
  unfold whiskerDragFrame
  have hnone : whiskerDragQ side (if s.freq = 0 then 1000 else s.freq) (clampFreq rawEdge)
      = none := by
    unfold whiskerDragQ
    by_cases h1 : (whiskerEdges side (if s.freq = 0 then 1000 else s.freq)
          (clampFreq rawEdge)).2
        ≤ (whiskerEdges side (if s.freq = 0 then 1000 else s.freq) (clampFreq rawEdge)).1
        ∨ (whiskerEdges side (if s.freq = 0 then 1000 else s.freq) (clampFreq rawEdge)).1 ≤ 0
    · rw [if_pos h1]
    · rw [if_neg h1]
      have h2 : Real.logb 2
          ((whiskerEdges side (if s.freq = 0 then 1000 else s.freq) (clampFreq rawEdge)).2
            / (whiskerEdges side (if s.freq = 0 then 1000 else s.freq)
                (clampFreq rawEdge)).1) ≤ 0 := by tauto
      rw [if_pos h2]
  simp only [hnone]

/-- C5 witness: dragging the right whisker endpoint to 500 Hz on a 1000 Hz
filter makes the reconstructed edges cross, and the frame leaves the state
untouched. -/
theorem C5_witness :
    whiskerDragFrame Side.right 500 { q := 1, freq := 1000, gain := 0 }
      = { q := 1, freq := 1000, gain := 0 } := by
  refine C5_degenerate_frame_noop Side.right 500 { q := 1, freq := 1000, gain := 0 } ?_
  left
  norm_num [whiskerEdges, clampFreq]

theorem whiskerDragQ_pos (side : Side) (freq fEdge : ℝ)
    (hlow : 0 < (whiskerEdges side freq fEdge).1)
    (hlt : (whiskerEdges side freq fEdge).1 < (whiskerEdges side freq fEdge).2)
    (hbw : 0 < Real.logb 2
      ((whiskerEdges side freq fEdge).2 / (whiskerEdges side freq fEdge).1)) :
    whiskerDragQ side freq fEdge
      = some (qStore (1 / (2 * Real.sinh (Real.logb 2
          ((whiskerEdges side freq fEdge).2 / (whiskerEdges side freq fEdge).1)
            * Real.log 2 / 2)))) := by
  unfold whiskerDragQ
  rw [if_neg (by push_neg; exact ⟨hlt, hlow⟩), if_neg (not_le.2 hbw)]

/-- C4: the bandwidth round trip — computing the edges from a Q in
`[0.1, 10]` via `edgesFromQ` and recovering Q from either edge through the
whisker-drag math (`fOther = f0² / fEdge`, `bw = log2(fHigh / fLow)`,
`q = 1 / (2 sinh(bw ln2 / 2))`, stored at 2-decimal precision) returns the
original Q to within half the stored precision step (1/200). -/
theorem C4_q_roundtrip (f0 q : ℝ) (hf : 0 < f0) (hq1 : 1 / 10 ≤ q) (hq2 : q ≤ 10) :
    (∃ qs, whiskerDragQ Side.right f0 (edgeHighFromQ f0 q) = some qs ∧ |qs - q| ≤ 1 / 200)
    ∧ (∃ qs, whiskerDragQ Side.left f0 (edgeLowFromQ f0 q) = some qs ∧ |qs - q| ≤ 1 / 200) := by
  have hq0 : 0 < q := lt_of_lt_of_le (by norm_num) hq1
  have hx : 0 < 1 / (2 * q) := by positivity
  have hL : 0 < Real.log 2 := Real.log_pos one_lt_two
  have hL' : Real.log 2 ≠ 0 := ne_of_gt hL
  have hb : 0 < bwFromQ q := by
    unfold bwFromQ
    exact div_pos (mul_pos two_pos (Real.arsinh_pos_iff.2 hx)) hL
  set b := bwFromQ q with hbdef
  set t := (2 : ℝ) ^ (b / 2) with htdef
  have ht0 : 0 < t := Real.rpow_pos_of_pos two_pos _
  have ht1 : 1 < t := by
    rw [htdef]
    exact (Real.one_lt_rpow_iff_of_pos two_pos).2 (Or.inl ⟨one_lt_two, by linarith⟩)
  have hf' : f0 ≠ 0 := ne_of_gt hf
  have ht' : t ≠ 0 := ne_of_gt ht0
  have htt : t * t = (2 : ℝ) ^ b := by
    rw [htdef, ← Real.rpow_add two_pos]
    norm_num
  have hlogbb : Real.logb 2 ((2 : ℝ) ^ b) = b :=
    Real.logb_rpow (by norm_num) (by norm_num)
  have hinner : b * Real.log 2 / 2 = Real.arsinh (1 / (2 * q)) := by
    rw [hbdef]
    unfold bwFromQ
    field_simp
  have hqback : 1 / (2 * Real.sinh (b * Real.log 2 / 2)) = q := by
    rw [hinner, Real.sinh_arsinh]
    field_simp
  constructor
  · have hedge : edgeHighFromQ f0 q = f0 * t := by
      rw [htdef, hbdef]; rfl
    have hedges : whiskerEdges Side.right f0 (f0 * t) = (f0 * f0 / (f0 * t), f0 * t) := rfl
    have hlowval : f0 * f0 / (f0 * t) = f0 / t := by
      field_simp
      ring
    have hlow : 0 < f0 * f0 / (f0 * t) := by
      rw [hlowval]; positivity
    have hltedges : f0 * f0 / (f0 * t) < f0 * t := by
      rw [hlowval]
      calc f0 / t < f0 := div_lt_self hf ht1
        _ < f0 * t := lt_mul_of_one_lt_right hf ht1
    have hratio : (f0 * t) / (f0 * f0 / (f0 * t)) = (2 : ℝ) ^ b := by
      rw [← htt]
      field_simp
      ring
    have hbw : 0 < Real.logb 2 ((f0 * t) / (f0 * f0 / (f0 * t))) := by
      rw [hratio, hlogbb]; exact hb
    have hmain := whiskerDragQ_pos Side.right f0 (f0 * t) (by rw [hedges]; exact hlow)
      (by rw [hedges]; exact hltedges) (by rw [hedges]; exact hbw)
    have hval : (whiskerEdges Side.right f0 (f0 * t)).2
        / (whiskerEdges Side.right f0 (f0 * t)).1 = (2 : ℝ) ^ b := by
      rw [hedges]; exact hratio
    rw [hval, hlogbb, hqback] at hmain
    exact ⟨qStore q, by rw [hedge]; exact hmain, qStore_near q hq1 hq2⟩
  · have hedge : edgeLowFromQ f0 q = f0 / t := by
      rw [htdef, hbdef]; rfl
    have hedges : whiskerEdges Side.left f0 (f0 / t) = (f0 / t, f0 * f0 / (f0 / t)) := rfl
    have hhighval : f0 * f0 / (f0 / t) = f0 * t := by
      field_simp
      ring
    have hlow : 0 < f0 / t := by positivity
    have hltedges : f0 / t < f0 * f0 / (f0 / t) := by
      rw [hhighval]
      calc f0 / t < f0 := div_lt_self hf ht1
        _ < f0 * t := lt_mul_of_one_lt_right hf ht1
    have hratio : (f0 * f0 / (f0 / t)) / (f0 / t) = (2 : ℝ) ^ b := by
      rw [hhighval, ← htt]
      field_simp
      ring
    have hbw : 0 < Real.logb 2 ((f0 * f0 / (f0 / t)) / (f0 / t)) := by
      rw [hratio, hlogbb]; exact hb
    have hmain := whiskerDragQ_pos Side.left f0 (f0 / t) (by rw [hedges]; exact hlow)
      (by rw [hedges]; exact hltedges) (by rw [hedges]; exact hbw)
    have hval : (whiskerEdges Side.left f0 (f0 / t)).2
        / (whiskerEdges Side.left f0 (f0 / t)).1 = (2 : ℝ) ^ b := by
      rw [hedges]; exact hratio
    rw [hval, hlogbb, hqback] at hmain
    exact ⟨qStore q, by rw [hedge]; exact hmain, qStore_near q hq1 hq2⟩

/-- C4 witness: the round trip at `f0 = 1000`, `q = 1` recovers Q within
1/200 on both edges. -/
theorem C4_witness :
    (0 : ℝ) < 1000 ∧ (1 / 10 : ℝ) ≤ 1 ∧ (1 : ℝ) ≤ 10
    ∧ ((∃ qs, whiskerDragQ Side.right 1000 (edgeHighFromQ 1000 1) = some qs
          ∧ |qs - 1| ≤ 1 / 200)
      ∧ (∃ qs, whiskerDragQ Side.left 1000 (edgeLowFromQ 1000 1) = some qs
          ∧ |qs - 1| ≤ 1 / 200)) :=
  ⟨by norm_num, by norm_num, by norm_num,
    C4_q_roundtrip 1000 1 (by norm_num) (by norm_num) (by norm_num)⟩

end InteractiveEQ
